import Mathlib

/-!
Shallow embedding of the exam physiological-data ETL pipeline of this
repository (`Data_Exploration.py` processes the 180-minute final exam,
`midterm2_csv_generate.py` the 90-minute midterm 2; the two scripts are
identical up to the duration constant, the exam folder name and the exam
label, so one embedding parametrised by duration and label covers both).

Floats are idealised as rationals (`ℚ`).  The one place where IEEE
non-finite values are observable in the scripts — `np.arange(len(df)) /
sample_rate` in `read_sensor_data` when the parsed sample rate is `0.0` —
is modelled explicitly by the `EF` type of extended values.
-/

/-- A line of a sensor file as pandas sees it: a numeric cell, or a
non-numeric one (`pd.read_csv` keeps non-numeric cells as strings in an
object column; `float()` on such a line raises). -/
inductive Cell
  | num (q : ℚ)
  | bad
deriving DecidableEq

/-- An IEEE-style extended value: finite values plus the non-finite values
that `np.arange(len(df)) / sample_rate` produces when the parsed sample
rate is `0.0` (numpy emits a warning, not an exception). -/
inductive EF
  | fin (q : ℚ)
  | nan
  | pinf
  | ninf
deriving DecidableEq

/-- Addition of a finite float to an extended value — the
`session_start + timestamps` line of `read_sensor_data`.  Matches IEEE
semantics for a finite left operand. -/
def EF.addQ (s : ℚ) : EF → EF
  | .fin b => .fin (s + b)
  | .nan => .nan
  | .pinf => .pinf
  | .ninf => .ninf

/-- Division of a finite float by a finite float as numpy performs it in
`np.arange(len(df)) / sample_rate`: division by `0.0` gives `nan` for a
zero numerator and a signed infinity otherwise. -/
def efDivFin (a b : ℚ) : EF :=
  if b = 0 then (if a = 0 then .nan else if 0 < a then .pinf else .ninf)
  else .fin (a / b)

/-- Finiteness test on extended values. -/
def EF.isFinite : EF → Bool
  | .fin _ => true
  | _ => false

/-- Strict comparison of extended values (IEEE `<`: any comparison with
`nan` is false). -/
def EF.ltb : EF → EF → Bool
  | .fin a, .fin b => decide (a < b)
  | .fin _, .pinf => true
  | .ninf, .fin _ => true
  | .ninf, .pinf => true
  | _, _ => false

/-- A sensor file, as the list of its lines.  Lines 1 and 2 are the
header (session start, sample rate); the remaining lines are the data
rows, one value per line. -/
structure SensorFile where
  lines : List Cell
deriving DecidableEq

/-- The exceptions raised while processing one sensor file:
`malformedHeader` when `float()` fails on one of the two header lines
(missing or non-numeric), `emptyData` when `pd.read_csv` finds no row
after `skiprows=2` (pandas `EmptyDataError`), `malformedData` when a
non-numeric data cell reaches the numeric aggregation step. -/
inductive ReadErr
  | malformedHeader
  | emptyData
  | malformedData
deriving DecidableEq

/-- Embedding of `read_sensor_data` (lines 9-28 of both scripts).  The
two header lines are parsed with `float()`; the data rows are re-read by
`pd.read_csv(file_path, skiprows=2, header=None, names=[column_name])`;
the timestamp of row `i` is `session_start + i / sample_rate`.  The
function itself never validates the sample rate and never inspects the
data cells, so it only fails on a bad header or on an empty data block.
A sample is a (timestamp, cell) pair, mirroring the returned dataframe's
(value, Timestamp) columns. -/
def read_sensor_data (f : SensorFile) : Except ReadErr (List (EF × Cell)) :=
  match f.lines with
  | .num session_start :: .num sample_rate :: data =>
    if data.isEmpty then .error .emptyData
    else .ok (((List.range data.length).zip data).map
      (fun p => (EF.addQ session_start (efDivFin (p.1 : ℚ) sample_rate), p.2)))
  | _ => .error .malformedHeader

/-- Minimum of the `Timestamp` column: `df["Timestamp"].min()`, `none`
for an empty frame (pandas returns NaN there). -/
def minTimestamp : List (ℚ × ℚ) → Option ℚ
  | [] => none
  | p :: rest => some (rest.foldl (fun m q => min m q.1) p.1)

/-- Minute bucket of one sample:
`(df["Timestamp"] - df["Timestamp"].min()) // 60`. -/
def minuteIndex (t0 t : ℚ) : ℤ := ⌊(t - t0) / 60⌋

/-- One step of the `groupby("Minute")` accumulation: add a (minute key,
value, timestamp) row to the running per-key (value sum, timestamp sum,
row count) table. -/
def insertSample (acc : List (ℤ × ℚ × ℚ × ℕ)) (k : ℤ) (v t : ℚ) :
    List (ℤ × ℚ × ℚ × ℕ) :=
  match acc with
  | [] => [(k, v, t, 1)]
  | (k₁, sv, st, c) :: rest =>
    if k₁ = k then (k₁, sv + v, st + t, c + 1) :: rest
    else (k₁, sv, st, c) :: insertSample rest k v t

/-- The `df.groupby("Minute")` sums and counts over (minute, value,
timestamp) rows.  Grouping is order-independent, so the accumulation
order is immaterial to the per-key sums. -/
def groupSums : List (ℤ × ℚ × ℚ) → List (ℤ × ℚ × ℚ × ℕ)
  | [] => []
  | (k, v, t) :: rest => insertSample (groupSums rest) k v t

/-- Lookup of one minute key in the grouped table (this is what the
`all_minutes.merge(df_agg, on="Minute", how="left")` row for that minute
finds, keys being unique after grouping). -/
def lookupGroup : List (ℤ × ℚ × ℚ × ℕ) → ℤ → Option (ℚ × ℚ × ℕ)
  | [], _ => none
  | (k₁, sv, st, c) :: rest, k =>
    if k₁ = k then some (sv, st, c) else lookupGroup rest k

/-- Embedding of `aggregate_to_minutes` (lines 30-48 of both scripts) on
a frame of (Timestamp, value) rows.  Steps, as in the source: bucket
index `(Timestamp - Timestamp.min()) // 60`; keep rows with bucket
`< exam_duration`; `groupby("Minute").mean()` (which averages both the
sensor column and the Timestamp column); left-merge onto
`np.arange(exam_duration)` so the output has one row per minute
`0..exam_duration-1`, minutes without rows holding NaN (`none`).
Output rows are (Minute, mean value, mean timestamp).
On an empty input frame `min()` is NaN, every comparison with NaN is
false, so every row is filtered away and all minutes come out missing;
the `none` branch below states that outcome directly. -/
def aggregate_to_minutes (samples : List (ℚ × ℚ)) (exam_duration : ℕ) :
    List (ℕ × Option ℚ × Option ℚ) :=
  match minTimestamp samples with
  | none => (List.range exam_duration).map (fun m => (m, none, none))
  | some t0 =>
    let keyed := samples.map (fun p => (minuteIndex t0 p.1, p.2, p.1))
    let surviving := keyed.filter (fun e => decide (e.1 < (exam_duration : ℤ)))
    let g := groupSums surviving
    (List.range exam_duration).map (fun (m : ℕ) =>
      match lookupGroup g ((m : ℤ)) with
      | some (sv, st, c) => (m, some (sv / (c : ℚ)), some (st / (c : ℚ)))
      | none => (m, none, none))

/-- Sum of a list of rationals. -/
def listSum (l : List ℚ) : ℚ := l.foldr (fun a b => a + b) 0

/-- Arithmetic mean of a list of rationals, `none` for the empty list. -/
def meanOpt (l : List ℚ) : Option ℚ :=
  if l.isEmpty then none else some (listSum l / (l.length : ℚ))

@[simp] lemma listSum_nil : listSum [] = 0 := rfl

@[simp] lemma listSum_cons (a : ℚ) (l : List ℚ) : listSum (a :: l) = a + listSum l := rfl

lemma lookupGroup_insertSample (acc : List (ℤ × ℚ × ℚ × ℕ)) (k : ℤ) (v t : ℚ) (k' : ℤ) :
    lookupGroup (insertSample acc k v t) k' =
      if k' = k then
        some (match lookupGroup acc k with
          | none => (v, t, 1)
          | some (sv, st, c) => (sv + v, st + t, c + 1))
      else lookupGroup acc k' := by
  induction acc with
  | nil =>
    by_cases h : k' = k
    · subst h; simp [insertSample, lookupGroup]
    · simp [insertSample, lookupGroup, h, Ne.symm h]
  | cons hd rest ih =>
    obtain ⟨k₁, sv, st, c⟩ := hd
    by_cases h₁ : k₁ = k
    · subst h₁
      by_cases h₂ : k' = k₁
      · subst h₂; simp [insertSample, lookupGroup]
      · simp [insertSample, lookupGroup, h₂, Ne.symm h₂]
    · by_cases h₂ : k' = k₁
      · subst h₂
        simp [insertSample, lookupGroup, h₁, Ne.symm h₁, ih]
      · simp [insertSample, lookupGroup, h₁, h₂, Ne.symm h₂, ih]

lemma lookupGroup_groupSums (l : List (ℤ × ℚ × ℚ)) (k : ℤ) :
    lookupGroup (groupSums l) k =
      (if (l.filter (fun e => decide (e.1 = k))).isEmpty then none
       else some (listSum ((l.filter (fun e => decide (e.1 = k))).map (fun e => e.2.1)),
                  listSum ((l.filter (fun e => decide (e.1 = k))).map (fun e => e.2.2)),
                  (l.filter (fun e => decide (e.1 = k))).length)) := by
  induction l with
  | nil => simp [groupSums, lookupGroup]
  | cons hd rest ih =>
    obtain ⟨k₁, v, t⟩ := hd
    show lookupGroup (insertSample (groupSums rest) k₁ v t) k = _
    rw [lookupGroup_insertSample]
    by_cases h : k = k₁
    · subst h
      rw [if_pos rfl, ih]
      by_cases hfl : (rest.filter (fun e => decide (e.1 = k))) = []
      · simp [List.filter_cons, hfl]
      · have hfl' : (rest.filter (fun e => decide (e.1 = k))).isEmpty = false := by
          simpa [List.isEmpty_iff] using hfl
        simp [List.filter_cons, hfl', add_comm]
    · have heq : List.filter (fun e => decide (e.1 = k)) ((k₁, v, t) :: rest) =
          List.filter (fun e => decide (e.1 = k)) rest := by
        simp [List.filter_cons, Ne.symm h]
      rw [if_neg h, ih, heq]

lemma aggregate_map_fst (samples : List (ℚ × ℚ)) (d : ℕ) :
    (aggregate_to_minutes samples d).map Prod.fst = List.range d := by
  unfold aggregate_to_minutes
  cases h : minTimestamp samples with
  | none =>
    rw [List.map_map]
    exact List.map_id'' (fun x => rfl) _
  | some t0 =>
    rw [List.map_map]
    have : ∀ m : ℕ,
        (Prod.fst ∘ fun (m : ℕ) =>
          (match lookupGroup (groupSums ((samples.map
              (fun p => (minuteIndex t0 p.1, p.2, p.1))).filter
              (fun e => decide (e.1 < (d : ℤ))))) ((m : ℤ)) with
            | some (sv, st, c) => (m, some (sv / (c : ℚ)), some (st / (c : ℚ)))
            | none => (m, none, none))) m = m := by
      intro m
      cases hg : lookupGroup (groupSums ((samples.map
          (fun p => (minuteIndex t0 p.1, p.2, p.1))).filter
          (fun e => decide (e.1 < (d : ℤ))))) ((m : ℤ)) with
      | none => simp [hg]
      | some trip => obtain ⟨sv, st, c⟩ := trip; simp [hg]
    calc (List.range d).map _ = (List.range d).map id := List.map_congr_left (fun m _ => this m)
    _ = List.range d := List.map_id _

lemma aggregate_length (samples : List (ℚ × ℚ)) (d : ℕ) :
    (aggregate_to_minutes samples d).length = d := by
  have h := congrArg List.length (aggregate_map_fst samples d)
  simpa using h

/-- Bucket-level characterisation of `aggregate_to_minutes`: the row of
each minute `m < duration` carries the arithmetic mean of the values (and
of the timestamps) of exactly the samples whose bucket index is `m`. -/
lemma aggregate_bucket_getElem (samples : List (ℚ × ℚ)) (t0 : ℚ)
    (ht0 : minTimestamp samples = some t0) (d m : ℕ) (hm : m < d) :
    (aggregate_to_minutes samples d)[m]? =
      some (m,
        meanOpt ((samples.filter
          (fun p => decide (minuteIndex t0 p.1 = (m : ℤ)))).map Prod.snd),
        meanOpt ((samples.filter
          (fun p => decide (minuteIndex t0 p.1 = (m : ℤ)))).map Prod.fst)) := by
  unfold aggregate_to_minutes
  rw [ht0]
  rw [List.getElem?_map, List.getElem?_range hm, Option.map_some']
  rw [lookupGroup_groupSums]
  have hfl : ((samples.map (fun p => (minuteIndex t0 p.1, p.2, p.1))).filter
        (fun e => decide (e.1 < (d : ℤ)))).filter (fun e => decide (e.1 = (m : ℤ))) =
      (samples.filter (fun p => decide (minuteIndex t0 p.1 = (m : ℤ)))).map
        (fun p => (minuteIndex t0 p.1, p.2, p.1)) := by
    rw [List.filter_filter, List.filter_map]
    congr 1
    apply List.filter_congr
    intro a _
    by_cases he : minuteIndex t0 a.1 = (m : ℤ)
    · have hlt : minuteIndex t0 a.1 < (d : ℤ) := by
        rw [he]; exact_mod_cast hm
      simp [he, hlt, hm]
    · simp [he]
  rw [hfl]
  by_cases he : (samples.filter (fun p => decide (minuteIndex t0 p.1 = (m : ℤ)))) = []
  · simp [he, meanOpt]
  · have hne : ((samples.filter
        (fun p => decide (minuteIndex t0 p.1 = (m : ℤ)))).map
        (fun p => (minuteIndex t0 p.1, p.2, p.1))).isEmpty = false := by
      simp [he]
    have hsnd : ((samples.filter
        (fun p => decide (minuteIndex t0 p.1 = (m : ℤ)))).map Prod.snd).isEmpty = false := by
      simp [he]
    have hfst : ((samples.filter
        (fun p => decide (minuteIndex t0 p.1 = (m : ℤ)))).map Prod.fst).isEmpty = false := by
      simp [he]
    rw [hne]
    simp only [Bool.false_eq_true, if_false, meanOpt, hsnd, hfst, List.map_map,
      List.length_map]
    rfl

/-- C1: for every non-empty input of raw (timestamp, value) samples and
every duration, `aggregate_to_minutes` gives each sample the bucket index
`floor((timestamp - min timestamp) / 60)`, discards the samples whose
bucket index is at least the duration, and the output row of each minute
`m < duration` carries exactly the arithmetic mean of the values (and of
the timestamps) of the samples whose bucket index is `m`; a bucket with
no such samples holds `none` (the missing-value marker), never `0`
(`meanOpt` of the empty list is `none`). -/
theorem aggregate_bucket_mean (samples : List (ℚ × ℚ)) (t0 : ℚ)
    (ht0 : minTimestamp samples = some t0) (d m : ℕ) (hm : m < d) :
    (aggregate_to_minutes samples d)[m]? =
      some (m,
        meanOpt ((samples.filter
          (fun p => decide (minuteIndex t0 p.1 = (m : ℤ)))).map Prod.snd),
        meanOpt ((samples.filter
          (fun p => decide (minuteIndex t0 p.1 = (m : ℤ)))).map Prod.fst)) :=
  aggregate_bucket_getElem samples t0 ht0 d m hm

/-- Witness for C1 at a concrete input: two samples one minute apart,
bucket 1 of 2 holding exactly the second sample. -/
theorem aggregate_bucket_mean_witness :
    (aggregate_to_minutes [((0 : ℚ), (2 : ℚ)), ((61 : ℚ), (4 : ℚ))] 2)[1]? =
      some (1,
        meanOpt (([((0 : ℚ), (2 : ℚ)), ((61 : ℚ), (4 : ℚ))].filter
          (fun p => decide (minuteIndex 0 p.1 = ((1 : ℕ) : ℤ)))).map Prod.snd),
        meanOpt (([((0 : ℚ), (2 : ℚ)), ((61 : ℚ), (4 : ℚ))].filter
          (fun p => decide (minuteIndex 0 p.1 = ((1 : ℕ) : ℤ)))).map Prod.fst)) :=
  aggregate_bucket_mean [((0 : ℚ), (2 : ℚ)), ((61 : ℚ), (4 : ℚ))] 0 (by decide) 2 1
    (by decide)

/-- C2: for every input (including the empty one) and every duration,
`aggregate_to_minutes` returns exactly `duration` rows whose minute
indices are contiguously `0, 1, ..., duration - 1`, and on the empty
input every row holds the missing marker. -/
theorem aggregate_shape (samples : List (ℚ × ℚ)) (d : ℕ) :
    (aggregate_to_minutes samples d).map Prod.fst = List.range d ∧
    (aggregate_to_minutes samples d).length = d ∧
    (samples = [] →
      aggregate_to_minutes samples d = (List.range d).map (fun m => (m, none, none))) := by
  refine ⟨aggregate_map_fst samples d, aggregate_length samples d, ?_⟩
  intro h
  subst h
  simp [aggregate_to_minutes, minTimestamp]

/-- Witness for C2 on the empty input at duration 3. -/
theorem aggregate_shape_witness :
    (aggregate_to_minutes ([] : List (ℚ × ℚ)) 3).map Prod.fst = List.range 3 ∧
    (aggregate_to_minutes ([] : List (ℚ × ℚ)) 3).length = 3 ∧
    (([] : List (ℚ × ℚ)) = [] →
      aggregate_to_minutes ([] : List (ℚ × ℚ)) 3 =
        (List.range 3).map (fun m => (m, none, none))) :=
  aggregate_shape [] 3

/-- Counterexample for C4 as stated: a file whose header is valid
(`start_time = 0`, `sample_rate = 1 > 0`) but that has `n = 0` data
lines does not yield `0` samples — `pd.read_csv` with every row skipped
raises `EmptyDataError`, so `read_sensor_data` fails instead of
returning an empty sample list. -/
theorem read_sensor_data_empty_counterexample :
    read_sensor_data ⟨[Cell.num 0, Cell.num 1]⟩ = Except.error ReadErr.emptyData ∧
    read_sensor_data ⟨[Cell.num 0, Cell.num 1]⟩ ≠ Except.ok [] := by
  constructor
  · rfl
  · intro hcon
    simp [read_sensor_data] at hcon

/-- C4 (amended to require at least one data line): for every file with
a numeric header, positive sample rate and `n ≥ 1` data lines,
`read_sensor_data` succeeds with exactly `n` samples, the `i`-th sample's
timestamp is `start_time + i / sample_rate`, and the timestamps are
strictly increasing with uniform spacing `1 / sample_rate` (the next
timestamp is always the previous one plus `1 / sample_rate`). -/
theorem read_sensor_data_valid (session_start sample_rate : ℚ) (hr : 0 < sample_rate)
    (data : List Cell) (hd : data ≠ []) :
    ∃ samples : List (EF × Cell),
      read_sensor_data ⟨Cell.num session_start :: Cell.num sample_rate :: data⟩ =
        Except.ok samples ∧
      samples.length = data.length ∧
      samples.map Prod.fst = (List.range data.length).map
        (fun (i : ℕ) => EF.fin (session_start + (i : ℚ) / sample_rate)) ∧
      List.Chain' (fun a b => EF.ltb a b = true) (samples.map Prod.fst) ∧
      (∀ i, (h₁ : i < samples.length) → (h₂ : i + 1 < samples.length) →
        (samples.get ⟨i + 1, h₂⟩).1 =
          EF.addQ (1 / sample_rate) (samples.get ⟨i, h₁⟩).1) := by
  have hie : data.isEmpty = false := by simp [hd]
  have hmap : ((((List.range data.length).zip data).map
      (fun p => (EF.addQ session_start (efDivFin (p.1 : ℚ) sample_rate), p.2))).map
        Prod.fst) =
      (List.range data.length).map
        (fun (i : ℕ) => EF.fin (session_start + (i : ℚ) / sample_rate)) := by
    rw [List.map_map]
    rw [show (Prod.fst ∘ (fun p : ℕ × Cell =>
        (EF.addQ session_start (efDivFin (p.1 : ℚ) sample_rate), p.2))) =
        ((fun i : ℕ => EF.addQ session_start (efDivFin (i : ℚ) sample_rate)) ∘ Prod.fst)
      from rfl]
    rw [← List.map_map, List.map_fst_zip _ _ (by simp)]
    exact List.map_congr_left (fun i _ => by simp [efDivFin, EF.addQ, hr.ne'])
  refine ⟨((List.range data.length).zip data).map
      (fun p => (EF.addQ session_start (efDivFin (p.1 : ℚ) sample_rate), p.2)),
    ?_, ?_, hmap, ?_, ?_⟩
  · simp [read_sensor_data, hie]
  · simp [List.length_zip]
  · rw [hmap, List.chain'_iff_get]
    intro i h
    simp only [List.get_eq_getElem, List.getElem_map, List.getElem_range, EF.ltb,
      decide_eq_true_eq]
    have h2 : (i : ℚ) / sample_rate < ((i : ℚ) + 1) / sample_rate :=
      (div_lt_div_iff_of_pos_right hr).mpr (by linarith)
    push_cast
    linarith
  · intro i h₁ h₂
    simp only [List.get_eq_getElem, List.getElem_map, List.getElem_zip, List.getElem_range]
    simp [efDivFin, hr.ne', EF.addQ]
    ring

/-- Witness for C4 (amended) at a concrete file: start `0`, rate `1`,
two data lines `5` and `7`. -/
theorem read_sensor_data_valid_witness :
    ∃ samples : List (EF × Cell),
      read_sensor_data ⟨Cell.num 0 :: Cell.num 1 :: [Cell.num 5, Cell.num 7]⟩ =
        Except.ok samples ∧
      samples.length = [Cell.num 5, Cell.num 7].length ∧
      samples.map Prod.fst = (List.range [Cell.num 5, Cell.num 7].length).map
        (fun (i : ℕ) => EF.fin ((0 : ℚ) + (i : ℚ) / (1 : ℚ))) ∧
      List.Chain' (fun a b => EF.ltb a b = true) (samples.map Prod.fst) ∧
      (∀ i, (h₁ : i < samples.length) → (h₂ : i + 1 < samples.length) →
        (samples.get ⟨i + 1, h₂⟩).1 =
          EF.addQ ((1 : ℚ) / (1 : ℚ)) (samples.get ⟨i, h₁⟩).1) :=
  read_sensor_data_valid 0 1 (by norm_num) [Cell.num 5, Cell.num 7] (by simp)

/-- C10: `read_sensor_data` never checks that the parsed sample rate is
positive.  For every file whose second header line parses as `0.0` and
that has at least one data line (numeric or not), the function raises no
error; `np.arange(n) / 0.0` makes every returned timestamp non-finite
(`0/0` is NaN for row 0, `i/0` is `+inf` for the later rows). -/
theorem read_sensor_data_zero_rate (session_start : ℚ) (data : List Cell) (hd : data ≠ []) :
    ∃ samples : List (EF × Cell),
      read_sensor_data ⟨Cell.num session_start :: Cell.num 0 :: data⟩ =
        Except.ok samples ∧
      samples.length = data.length ∧
      (∀ i, (h : i < samples.length) → (samples.get ⟨i, h⟩).1.isFinite = false) := by
  have hie : data.isEmpty = false := by simp [hd]
  refine ⟨((List.range data.length).zip data).map
      (fun p => (EF.addQ session_start (efDivFin (p.1 : ℚ) 0), p.2)), ?_, ?_, ?_⟩
  · simp [read_sensor_data, hie]
  · simp [List.length_zip]
  · intro i h
    simp only [List.get_eq_getElem, List.getElem_map, List.getElem_zip, List.getElem_range]
    rcases Nat.eq_zero_or_pos i with hi | hi
    · subst hi
      simp [efDivFin, EF.addQ, EF.isFinite]
    · have h0 : ((i : ℚ)) ≠ 0 := (Nat.cast_pos.mpr hi).ne'
      simp [efDivFin, h0, Nat.cast_pos.mpr hi, EF.addQ, EF.isFinite]

/-- Witness for C10 at a concrete file: start `3`, rate `0`, one
non-numeric data line (which the reader does not inspect). -/
theorem read_sensor_data_zero_rate_witness :
    ∃ samples : List (EF × Cell),
      read_sensor_data ⟨Cell.num 3 :: Cell.num 0 :: [Cell.bad]⟩ = Except.ok samples ∧
      samples.length = [Cell.bad].length ∧
      (∀ i, (h : i < samples.length) → (samples.get ⟨i, h⟩).1.isFinite = false) :=
  read_sensor_data_zero_rate 3 [Cell.bad] (by simp)

/-- The four sensors of the `SENSORS` dict. -/
inductive Sensor
  | EDA
  | HR
  | TEMP
  | BVP
deriving DecidableEq

/-- The `SENSORS` dict keys in their Python insertion order
(`EDA, HR, TEMP, BVP`); the per-student loop iterates them in this
order, and `sensor_dfs.items()` later replays successful entries in the
same order. -/
def sensorList : List Sensor := [Sensor.EDA, Sensor.HR, Sensor.TEMP, Sensor.BVP]

/-- An aggregated per-sensor frame: rows (Minute, mean value, mean
timestamp) as produced by `aggregate_to_minutes`. -/
abbrev Agg := List (ℕ × Option ℚ × Option ℚ)

/-- One student directory: its basename (the student id) and, when the
exam subfolder ("Final" or "Midterm 2") exists, the mapping from sensor
to that sensor's file when the file is present. -/
structure StudentDir where
  id : String
  exam : Option (Sensor → Option SensorFile)

/-- The console messages the scripts print, with the identities they
mention. -/
inductive LogEvent
  | folderMissing (student : String)
  | fileMissing (student : String) (s : Sensor)
  | sensorError (student : String) (s : Sensor) (e : ReadErr)
  | noEDA (student : String)
  | nothingProduced
  | savedOutput
deriving DecidableEq

/-- Does the value column contain a non-numeric cell? -/
def hasBadCell (samples : List (EF × Cell)) : Bool :=
  samples.any (fun s => decide (s.2 = Cell.bad))

/-- The rows whose timestamp is finite and whose value cell is numeric,
as (timestamp, value) pairs.  In the source, rows with a NaN or infinite
timestamp are the ones discarded by the `df["Minute"] < exam_duration`
filter of `aggregate_to_minutes` (their Minute is NaN), and `min()`
skips NaN, so aggregating only the finite-timestamp rows gives the same
frame; non-finite timestamps only ever arise from a zero sample rate, in
which case no timestamp at all is finite. -/
def finiteSamples (samples : List (EF × Cell)) : List (ℚ × ℚ) :=
  samples.filterMap (fun s =>
    match s with
    | (EF.fin t, Cell.num v) => some (t, v)
    | _ => none)

/-- Read-then-aggregate for one sensor file, the body of the per-sensor
`try` block (lines 76-79 resp. 77-80).  A non-numeric data cell makes
the numeric aggregation raise (under pandas 2, `groupby().mean()` on the
object column raises TypeError), caught by the same per-sensor handler;
following the spec's Reader contract the whole file is then abandoned,
modelled as `malformedData`. -/
def processSensorFile (f : SensorFile) (duration : ℕ) : Except ReadErr Agg :=
  match read_sensor_data f with
  | .error e => .error e
  | .ok samples =>
    if hasBadCell samples then .error .malformedData
    else .ok (aggregate_to_minutes (finiteSamples samples) duration)

/-- The per-sensor loop of the per-student block (lines 73-83 resp.
74-84): walk the sensors in dict order, skip missing files with a log
line, process present files, catch per-file errors with a log line, and
collect the successful (sensor, aggregated frame) pairs in order. -/
def processSensors (sid : String) (files : Sensor → Option SensorFile) (d : ℕ) :
    List Sensor → List (Sensor × Agg) × List LogEvent
  | [] => ([], [])
  | s :: rest =>
    let r := processSensors sid files d rest
    match files s with
    | none => (r.1, LogEvent.fileMissing sid s :: r.2)
    | some f =>
      match processSensorFile f d with
      | .ok a => ((s, a) :: r.1, r.2)
      | .error e => (r.1, LogEvent.sensorError sid s e :: r.2)

/-- The successful (sensor, frame) pairs for one student, in sensor
order — the `sensor_dfs` dict. -/
def sensorFrames (sid : String) (files : Sensor → Option SensorFile) (d : ℕ) :
    List (Sensor × Agg) :=
  (processSensors sid files d sensorList).1

/-- The log lines emitted by the per-sensor loop for one student. -/
def sensorLogs (sid : String) (files : Sensor → Option SensorFile) (d : ℕ) :
    List LogEvent :=
  (processSensors sid files d sensorList).2

/-- Lookup of one sensor in the `sensor_dfs` dict. -/
def lookupSensor (s : Sensor) (dfs : List (Sensor × Agg)) : Option Agg :=
  (dfs.find? (fun p => decide (p.1 = s))).map Prod.snd

/-- One student's merged frame: the sensor value columns present (in
merge order), the rows (Minute, per-sensor cell), and the `Student` and
`Exam` metadata columns (added to every row).  The suffixed mean-
timestamp columns (`Timestamp`, `Timestamp_HR`, ...) that the merge also
carries are dropped by the final column selection of the script and are
omitted here. -/
structure Frame where
  cols : List Sensor
  rows : List (ℕ × (Sensor → Option ℚ))
  student : String
  exam : String

/-- The merge seed: the EDA frame (`df_student = sensor_dfs["EDA"]`),
holding the EDA value column only. -/
def seedFrame (sid lbl : String) (eda : Agg) : Frame :=
  { cols := [Sensor.EDA],
    rows := eda.map (fun r => (r.1, fun s => if s = Sensor.EDA then r.2.1 else none)),
    student := sid,
    exam := lbl }

/-- One `df_student.merge(df, on="Minute", how="outer", suffixes=...)`
step.  Minute keys are unique on both sides (each side comes from
`aggregate_to_minutes`, whose key column is `np.arange(duration)`), so
each left row picks up the at-most-one right row with its key, and
right-only keys are appended as new rows whose previously merged cells
are missing. -/
def joinSensor (fr : Frame) (s : Sensor) (a : Agg) : Frame :=
  { cols := fr.cols ++ [s],
    rows :=
      fr.rows.map (fun r =>
        (r.1, fun s₁ => if s₁ = s
          then ((a.find? (fun ar => decide (ar.1 = r.1))).map (fun ar => ar.2.1)).join
          else r.2 s₁)) ++
      (a.filter (fun ar => !(fr.rows.any (fun r => decide (r.1 = ar.1))))).map
        (fun ar => (ar.1, fun s₁ => if s₁ = s then ar.2.1 else none)),
    student := fr.student,
    exam := fr.exam }

/-- The merge block of the per-student loop (lines 85-95 resp. 86-96):
if EDA produced no frame the student is skipped (`None`); otherwise the
EDA frame is the seed and every other successful sensor frame is
outer-joined onto it in dict order. -/
def mergeStudent (sid lbl : String) (dfs : List (Sensor × Agg)) : Option Frame :=
  match lookupSensor Sensor.EDA dfs with
  | none => none
  | some eda =>
    some ((dfs.filter (fun p => !(decide (p.1 = Sensor.EDA)))).foldl
      (fun fr p => joinSensor fr p.1 p.2) (seedFrame sid lbl eda))

/-- One full iteration of the student loop: missing exam folder is
logged and skipped; otherwise the sensors are processed and the merge is
attempted, a missing EDA frame being logged and yielding no frame. -/
def processStudent (st : StudentDir) (d : ℕ) (lbl : String) :
    Option Frame × List LogEvent :=
  match st.exam with
  | none => (none, [LogEvent.folderMissing st.id])
  | some files =>
    match mergeStudent st.id lbl (sensorFrames st.id files d) with
    | some fr => (some fr, sensorLogs st.id files d)
    | none => (none, sensorLogs st.id files d ++ [LogEvent.noEDA st.id])

/-- The merged frames accumulated over the (sorted) student list —
`final_exam_data_list` resp. `midterm2_data_list`. -/
def pipelineFrames (students : List StudentDir) (d : ℕ) (lbl : String) : List Frame :=
  students.filterMap (fun st => (processStudent st d lbl).1)

/-- A column of the written table. -/
inductive Col
  | student
  | exam
  | minute
  | sensor (s : Sensor)
deriving DecidableEq

/-- The `desired_cols` list
`["Student", "Exam", "Minute", "EDA", "BVP", "TEMP", "HR"]`. -/
def desiredCols : List Col :=
  [Col.student, Col.exam, Col.minute, Col.sensor Sensor.EDA,
   Col.sensor Sensor.BVP, Col.sensor Sensor.TEMP, Col.sensor Sensor.HR]

/-- One row of the written table. -/
structure CorpusRow where
  student : String
  exam : String
  minute : ℕ
  cells : Sensor → Option ℚ

/-- The written table: its column list and its rows. -/
structure Corpus where
  cols : List Col
  rows : List CorpusRow

/-- Is a column present in the concatenated frame?  `Student`, `Exam`
and `Minute` always are (every merged frame has them); a sensor column
exists exactly when some student's frame carries it. -/
def colPresent (frames : List Frame) : Col → Bool
  | .student => true
  | .exam => true
  | .minute => true
  | .sensor s => frames.any (fun fr => decide (s ∈ fr.cols))

/-- `pd.concat(..., ignore_index=True)`: the students' rows stacked in
order, each annotated with its frame's Student and Exam values. -/
def concatFrames (frames : List Frame) : List CorpusRow :=
  frames.flatMap (fun fr =>
    fr.rows.map (fun r => ⟨fr.student, fr.exam, r.1, r.2⟩))

/-- The written table: `desired_cols` filtered to the existing columns,
in that fixed order, over the concatenated rows. -/
def mkCorpus (frames : List Frame) : Corpus :=
  { cols := desiredCols.filter (colPresent frames),
    rows := concatFrames frames }

/-- The whole script for one exam type: process every student in order,
then either report that nothing was merged (no write) or write the
reordered concatenation. -/
def runPipeline (students : List StudentDir) (d : ℕ) (lbl : String) :
    Option Corpus × List LogEvent :=
  let frames := pipelineFrames students d lbl
  let log := students.flatMap (fun st => (processStudent st d lbl).2)
  if frames.isEmpty then (none, log ++ [LogEvent.nothingProduced])
  else (some (mkCorpus frames), log ++ [LogEvent.savedOutput])

lemma processSensorFile_ok_keys (f : SensorFile) (d : ℕ) (a : Agg)
    (h : processSensorFile f d = Except.ok a) : a.map Prod.fst = List.range d := by
  unfold processSensorFile at h
  cases hr : read_sensor_data f with
  | error e =>
    rw [hr] at h
    dsimp only at h
    exact absurd h (by simp)
  | ok samples =>
    rw [hr] at h
    dsimp only at h
    by_cases hb : hasBadCell samples
    · rw [if_pos hb] at h; exact absurd h (by simp)
    · rw [if_neg hb] at h
      have ha : a = aggregate_to_minutes (finiteSamples samples) d := by
        cases h; rfl
      rw [ha]
      exact aggregate_map_fst _ _

/-- The per-sensor loop builds exactly the successful entries, in sensor
order. -/
lemma processSensors_fst_eq (sid : String) (files : Sensor → Option SensorFile)
    (d : ℕ) (ls : List Sensor) :
    (processSensors sid files d ls).1 = ls.filterMap (fun s =>
      match files s with
      | none => none
      | some f =>
        match processSensorFile f d with
        | .ok a => some (s, a)
        | .error _ => none) := by
  induction ls with
  | nil => rfl
  | cons s rest ih =>
    cases hf : files s with
    | none => simp [processSensors, hf, ih]
    | some f =>
      cases hp : processSensorFile f d with
      | ok a => simp [processSensors, hf, hp, ih]
      | error e => simp [processSensors, hf, hp, ih]

lemma sensorFrames_mem (sid : String) (files : Sensor → Option SensorFile)
    (d : ℕ) (p : Sensor × Agg) (hp : p ∈ sensorFrames sid files d) :
    p.1 ∈ sensorList ∧
    ∃ f, files p.1 = some f ∧ processSensorFile f d = Except.ok p.2 := by
  rw [sensorFrames, processSensors_fst_eq] at hp
  rw [List.mem_filterMap] at hp
  obtain ⟨s, hs, hg⟩ := hp
  cases hf : files s with
  | none => rw [hf] at hg; exact absurd hg (by simp)
  | some f =>
    rw [hf] at hg
    dsimp only at hg
    cases hpf : processSensorFile f d with
    | error e =>
      rw [hpf] at hg
      exact absurd hg (by simp)
    | ok a =>
      rw [hpf] at hg
      have : (s, a) = p := by simpa using hg
      subst this
      exact ⟨hs, f, hf, hpf⟩

lemma sensorFrames_keys (sid : String) (files : Sensor → Option SensorFile)
    (d : ℕ) (p : Sensor × Agg) (hp : p ∈ sensorFrames sid files d) :
    p.2.map Prod.fst = List.range d := by
  obtain ⟨-, f, -, hok⟩ := sensorFrames_mem sid files d p hp
  exact processSensorFile_ok_keys f d p.2 hok

/-- When the EDA frame exists it sits at the head of `sensor_dfs` (EDA
is the first key of the `SENSORS` dict), and no later entry is EDA. -/
lemma sensorFrames_eda_head (sid : String) (files : Sensor → Option SensorFile)
    (d : ℕ) (eda : Agg)
    (h : lookupSensor Sensor.EDA (sensorFrames sid files d) = some eda) :
    ∃ rest, sensorFrames sid files d = (Sensor.EDA, eda) :: rest ∧
      ∀ p ∈ rest, p.1 ≠ Sensor.EDA := by
  have hform := processSensors_fst_eq sid files d sensorList
  rw [sensorFrames] at *
  set g : Sensor → Option (Sensor × Agg) := fun s =>
    match files s with
    | none => none
    | some f =>
      match processSensorFile f d with
      | .ok a => some (s, a)
      | .error _ => none with hg
  have hgfst : ∀ s p, g s = some p → p.1 = s := by
    intro s p hsp
    rw [hg] at hsp
    dsimp only at hsp
    cases hf : files s with
    | none => rw [hf] at hsp; exact absurd hsp (by simp)
    | some f =>
      rw [hf] at hsp
      dsimp only at hsp
      cases hpf : processSensorFile f d with
      | error e =>
        rw [hpf] at hsp
        exact absurd hsp (by simp)
      | ok a =>
        rw [hpf] at hsp
        have := hsp.symm
        cases this
        rfl
  have hrest3 : ∀ p ∈ ([Sensor.HR, Sensor.TEMP, Sensor.BVP].filterMap g),
      p.1 ≠ Sensor.EDA := by
    intro p hp
    rw [List.mem_filterMap] at hp
    obtain ⟨s, hs, hgs⟩ := hp
    have := hgfst s p hgs
    rw [this]
    intro hcon
    rw [hcon] at hs
    simp at hs
  cases hEDA : g Sensor.EDA with
  | none =>
    exfalso
    have hform2 : (processSensors sid files d sensorList).1 =
        [Sensor.HR, Sensor.TEMP, Sensor.BVP].filterMap g := by
      rw [hform]
      show List.filterMap g (Sensor.EDA :: [Sensor.HR, Sensor.TEMP, Sensor.BVP]) = _
      rw [List.filterMap_cons_none hEDA]
    rw [hform2] at h
    rw [lookupSensor, List.find?_eq_none.mpr] at h
    · exact absurd h (by simp)
    · intro p hp
      simpa using hrest3 p hp
  | some p =>
    have hp1 : p.1 = Sensor.EDA := hgfst Sensor.EDA p hEDA
    have hform2 : (processSensors sid files d sensorList).1 =
        p :: [Sensor.HR, Sensor.TEMP, Sensor.BVP].filterMap g := by
      rw [hform]
      show List.filterMap g (Sensor.EDA :: [Sensor.HR, Sensor.TEMP, Sensor.BVP]) = _
      rw [List.filterMap_cons_some hEDA]
    rw [hform2] at h
    rw [lookupSensor] at h
    have hfind : List.find? (fun q => decide (q.1 = Sensor.EDA))
        (p :: [Sensor.HR, Sensor.TEMP, Sensor.BVP].filterMap g) = some p := by
      rw [List.find?_cons_of_pos]
      simp [hp1]
    rw [hfind] at h
    have hpeda : p.2 = eda := by simpa using h
    refine ⟨[Sensor.HR, Sensor.TEMP, Sensor.BVP].filterMap g, ?_, hrest3⟩
    rw [hform2]
    have : p = (Sensor.EDA, eda) := by
      obtain ⟨p1, p2⟩ := p
      simp only at hp1 hpeda
      rw [hp1, hpeda]
    rw [this]

/-- Outer-joining frames whose Minute keys are both `0..d-1` neither
drops nor adds rows: the join accumulates columns only. -/
lemma foldJoin_spec (d : ℕ) (entries : List (Sensor × Agg)) :
    ∀ fr : Frame,
      fr.rows.map Prod.fst = List.range d →
      (∀ p ∈ entries, p.2.map Prod.fst = List.range d) →
      ((entries.foldl (fun fr p => joinSensor fr p.1 p.2) fr).rows.map Prod.fst =
          List.range d ∧
        (entries.foldl (fun fr p => joinSensor fr p.1 p.2) fr).cols =
          fr.cols ++ entries.map Prod.fst ∧
        (entries.foldl (fun fr p => joinSensor fr p.1 p.2) fr).student = fr.student ∧
        (entries.foldl (fun fr p => joinSensor fr p.1 p.2) fr).exam = fr.exam) := by
  induction entries with
  | nil =>
    intro fr hfr _
    refine ⟨hfr, ?_, rfl, rfl⟩
    simp
  | cons p rest ih =>
    intro fr hfr hent
    rw [List.foldl_cons]
    have hpkeys : p.2.map Prod.fst = List.range d := hent p (by simp)
    have hjoin_rows : (joinSensor fr p.1 p.2).rows.map Prod.fst = List.range d := by
      show ((fr.rows.map _ ++ _).map Prod.fst) = List.range d
      have hempty : p.2.filter
          (fun ar => !(fr.rows.any (fun r => decide (r.1 = ar.1)))) = [] := by
        rw [List.filter_eq_nil_iff]
        intro ar har
        have har1 : ar.1 ∈ List.range d := by
          rw [← hpkeys]; exact List.mem_map_of_mem Prod.fst har
        rw [← hfr] at har1
        rw [List.mem_map] at har1
        obtain ⟨r, hr, hr1⟩ := har1
        have hany : (fr.rows.any fun r => decide (r.1 = ar.1)) = true := by
          rw [List.any_eq_true]
          exact ⟨r, hr, by simp [hr1]⟩
        simp [hany]
      rw [hempty]
      simp only [List.map_nil, List.append_nil, List.map_map]
      rw [show (Prod.fst ∘ fun (r : ℕ × (Sensor → Option ℚ)) =>
          ((r.1, fun s₁ => if s₁ = p.1
            then ((p.2.find? (fun ar => decide (ar.1 = r.1))).map (fun ar => ar.2.1)).join
            else r.2 s₁) : ℕ × (Sensor → Option ℚ))) = Prod.fst from rfl]
      exact hfr
    have hrest : ∀ q ∈ rest, q.2.map Prod.fst = List.range d :=
      fun q hq => hent q (by simp [hq])
    obtain ⟨h1, h2, h3, h4⟩ := ih (joinSensor fr p.1 p.2) hjoin_rows hrest
    refine ⟨h1, ?_, ?_, ?_⟩
    · rw [h2]
      show (fr.cols ++ [p.1]) ++ rest.map Prod.fst = fr.cols ++ (p.1 :: rest.map Prod.fst)
      rw [List.append_assoc]
      rfl
    · rw [h3]; rfl
    · rw [h4]; rfl

/-- What the merge produces for a student whose EDA frame exists:
exactly the frame seeded by EDA and joined with the other successful
sensors, whose rows still cover every minute and whose columns are the
successful sensors in order. -/
lemma mergeStudent_spec (sid lbl : String) (d : ℕ) (eda : Agg)
    (rest : List (Sensor × Agg))
    (hkeys : ∀ p ∈ (Sensor.EDA, eda) :: rest, p.2.map Prod.fst = List.range d)
    (hrest : ∀ p ∈ rest, p.1 ≠ Sensor.EDA) :
    ∃ fr, mergeStudent sid lbl ((Sensor.EDA, eda) :: rest) = some fr ∧
      fr.rows.map Prod.fst = List.range d ∧
      fr.cols = Sensor.EDA :: rest.map Prod.fst ∧
      fr.student = sid ∧ fr.exam = lbl := by
  have hlook : lookupSensor Sensor.EDA ((Sensor.EDA, eda) :: rest) = some eda := by
    rw [lookupSensor, List.find?_cons_of_pos _ (by simp)]
    rfl
  have hfilter : ((Sensor.EDA, eda) :: rest).filter
      (fun p => !(decide (p.1 = Sensor.EDA))) = rest := by
    rw [List.filter_cons]
    have hhead : (!(decide (((Sensor.EDA, eda) : Sensor × Agg).1 = Sensor.EDA))) = false := by
      simp
    rw [hhead]
    simp only [Bool.false_eq_true, if_false]
    rw [List.filter_eq_self]
    intro p hp
    simp [hrest p hp]
  have hseed_rows : (seedFrame sid lbl eda).rows.map Prod.fst = List.range d := by
    show (eda.map _).map Prod.fst = List.range d
    rw [List.map_map]
    rw [show (Prod.fst ∘ fun (r : ℕ × Option ℚ × Option ℚ) =>
        ((r.1, fun s => if s = Sensor.EDA then r.2.1 else none) :
          ℕ × (Sensor → Option ℚ))) = Prod.fst from rfl]
    exact hkeys (Sensor.EDA, eda) (by simp)
  have hrestkeys : ∀ p ∈ rest, p.2.map Prod.fst = List.range d :=
    fun p hp => hkeys p (by simp [hp])
  obtain ⟨h1, h2, h3, h4⟩ := foldJoin_spec d rest (seedFrame sid lbl eda)
    hseed_rows hrestkeys
  refine ⟨_, ?_, h1, ?_, h3, h4⟩
  · rw [mergeStudent, hlook, hfilter]
  · rw [h2]; rfl

lemma processStudent_some_spec (st : StudentDir) (d : ℕ) (lbl : String)
    (files : Sensor → Option SensorFile) (hex : st.exam = some files) (fr : Frame)
    (h : (processStudent st d lbl).1 = some fr) :
    fr.rows.map Prod.fst = List.range d ∧
    fr.cols = (sensorFrames st.id files d).map Prod.fst ∧
    fr.student = st.id ∧ fr.exam = lbl := by
  rw [processStudent, hex] at h
  dsimp only at h
  cases hm : mergeStudent st.id lbl (sensorFrames st.id files d) with
  | none => rw [hm] at h; exact absurd h (by simp)
  | some fr₁ =>
    rw [hm] at h
    have hfr : fr₁ = fr := by simpa using h
    subst hfr
    have heda : ∃ eda, lookupSensor Sensor.EDA (sensorFrames st.id files d) = some eda := by
      rw [mergeStudent] at hm
      cases hl : lookupSensor Sensor.EDA (sensorFrames st.id files d) with
      | none => rw [hl] at hm; exact absurd hm (by simp)
      | some eda => exact ⟨eda, rfl⟩
    obtain ⟨eda, hl⟩ := heda
    obtain ⟨rest, hform, hrest⟩ := sensorFrames_eda_head st.id files d eda hl
    have hkeys : ∀ p ∈ (Sensor.EDA, eda) :: rest, p.2.map Prod.fst = List.range d := by
      intro p hp
      exact sensorFrames_keys st.id files d p (by rw [hform]; exact hp)
    obtain ⟨fr₂, hm₂, hk₂, hc₂, hs₂, he₂⟩ := mergeStudent_spec st.id lbl d eda rest hkeys hrest
    rw [hform] at hm
    rw [hm₂] at hm
    have : fr₂ = fr₁ := by simpa using hm
    subst this
    refine ⟨hk₂, ?_, hs₂, he₂⟩
    rw [hc₂, hform]
    rfl

lemma processStudent_succeeds (st : StudentDir) (d : ℕ) (lbl : String)
    (files : Sensor → Option SensorFile) (hex : st.exam = some files)
    (hEDA : (lookupSensor Sensor.EDA (sensorFrames st.id files d)).isSome = true) :
    ∃ fr, processStudent st d lbl = (some fr, sensorLogs st.id files d) := by
  rw [Option.isSome_iff_exists] at hEDA
  obtain ⟨eda, hl⟩ := hEDA
  obtain ⟨rest, hform, hrest⟩ := sensorFrames_eda_head st.id files d eda hl
  have hkeys : ∀ p ∈ (Sensor.EDA, eda) :: rest, p.2.map Prod.fst = List.range d := by
    intro p hp
    exact sensorFrames_keys st.id files d p (by rw [hform]; exact hp)
  obtain ⟨fr, hm, -⟩ := mergeStudent_spec st.id lbl d eda rest hkeys hrest
  refine ⟨fr, ?_⟩
  rw [processStudent, hex]
  dsimp only
  rw [hform, hm]

/-- C3: for every student whose EDA series was successfully produced,
the merged frame exists and has exactly `d` rows, one per minute
`0..d-1`, however many of the 4 sensors were present; its sensor columns
are exactly the successfully aggregated sensors, so absent sensors leave
their columns entirely missing instead of dropping rows. -/
theorem merged_frame_shape (st : StudentDir) (d : ℕ) (lbl : String)
    (files : Sensor → Option SensorFile) (hex : st.exam = some files)
    (hEDA : (lookupSensor Sensor.EDA (sensorFrames st.id files d)).isSome = true) :
    (processStudent st d lbl).1.map
        (fun fr => (fr.rows.map Prod.fst, fr.rows.length, fr.cols)) =
      some (List.range d, d, (sensorFrames st.id files d).map Prod.fst) := by
  obtain ⟨fr, hfr⟩ := processStudent_succeeds st d lbl files hex hEDA
  have h1 : (processStudent st d lbl).1 = some fr := by rw [hfr]
  obtain ⟨hk, hc, -, -⟩ := processStudent_some_spec st d lbl files hex fr h1
  rw [h1]
  have hlen : fr.rows.length = d := by
    have := congrArg List.length hk
    simpa using this
  simp [hk, hc, hlen]

/-- A two-sample EDA file: start 0, rate 1, values 5 and 7 (both in
minute 0). -/
def wEDAfile : SensorFile := ⟨[Cell.num 0, Cell.num 1, Cell.num 5, Cell.num 7]⟩

/-- A one-sample HR file: start 0, rate 1, value 9. -/
def wHRfile : SensorFile := ⟨[Cell.num 0, Cell.num 1, Cell.num 9]⟩

/-- A student directory holding only EDA.csv and HR.csv. -/
def c3files : Sensor → Option SensorFile := fun s =>
  match s with
  | Sensor.EDA => some wEDAfile
  | Sensor.HR => some wHRfile
  | _ => none

def c3student : StudentDir := ⟨"S1", some c3files⟩

/-- Witness for C3: a student with only EDA and HR files, at duration 2. -/
theorem merged_frame_shape_witness :
    (processStudent c3student 2 "Final").1.map
        (fun fr => (fr.rows.map Prod.fst, fr.rows.length, fr.cols)) =
      some (List.range 2, 2, (sensorFrames c3student.id c3files 2).map Prod.fst) :=
  merged_frame_shape c3student 2 "Final" c3files rfl (by decide)

lemma lookupSensor_eq_none (s : Sensor) (dfs : List (Sensor × Agg))
    (h : ∀ p ∈ dfs, p.1 ≠ s) : lookupSensor s dfs = none := by
  rw [lookupSensor, List.find?_eq_none.mpr]
  · rfl
  · intro p hp
    simp [h p hp]

/-- A student whose EDA file is missing or fails produces no EDA entry
in `sensor_dfs`. -/
lemma sensorFrames_eda_unavailable (sid : String) (files : Sensor → Option SensorFile)
    (d : ℕ)
    (hEDA : files Sensor.EDA = none ∨
      ∃ f e, files Sensor.EDA = some f ∧ processSensorFile f d = Except.error e) :
    lookupSensor Sensor.EDA (sensorFrames sid files d) = none := by
  apply lookupSensor_eq_none
  intro p hp hcon
  obtain ⟨-, f, hf, hok⟩ := sensorFrames_mem sid files d p hp
  rw [hcon] at hf
  rcases hEDA with hnone | ⟨f₁, e, hf₁, herr⟩
  · rw [hnone] at hf
    exact absurd hf (by simp)
  · have hff : f₁ = f := by
      have := hf₁.symm.trans hf
      simpa using this
    rw [hff] at herr
    rw [hok] at herr
    exact absurd herr (by simp)

/-- C5: a student whose EDA series is unavailable (file missing or its
processing failed) yields no merged frame — zero rows in the corpus —
the skip is logged, and the rest of the batch is unaffected, whatever
other sensor files the student has. -/
theorem eda_missing_student_skipped (st : StudentDir) (d : ℕ) (lbl : String)
    (files : Sensor → Option SensorFile) (hex : st.exam = some files)
    (hEDA : files Sensor.EDA = none ∨
      ∃ f e, files Sensor.EDA = some f ∧ processSensorFile f d = Except.error e) :
    (processStudent st d lbl).1 = none ∧
    LogEvent.noEDA st.id ∈ (processStudent st d lbl).2 ∧
    ∀ pre post : List StudentDir,
      pipelineFrames (pre ++ st :: post) d lbl =
        pipelineFrames pre d lbl ++ pipelineFrames post d lbl := by
  have hlook := sensorFrames_eda_unavailable st.id files d hEDA
  have hme : mergeStudent st.id lbl (sensorFrames st.id files d) = none := by
    rw [mergeStudent, hlook]
  have h1 : processStudent st d lbl =
      (none, sensorLogs st.id files d ++ [LogEvent.noEDA st.id]) := by
    rw [processStudent, hex]
    dsimp only
    rw [hme]
  refine ⟨by rw [h1], ?_, ?_⟩
  · rw [h1]
    simp
  · intro pre post
    show (pre ++ st :: post).filterMap (fun s₂ => (processStudent s₂ d lbl).1) = _
    rw [List.filterMap_append, List.filterMap_cons_none (by rw [h1])]
    rfl

/-- A student directory holding only HR.csv (no EDA.csv). -/
def c5files : Sensor → Option SensorFile := fun s =>
  match s with
  | Sensor.HR => some wHRfile
  | _ => none

def c5student : StudentDir := ⟨"S2", some c5files⟩

/-- Witness for C5: a student with a valid HR.csv but no EDA.csv. -/
theorem eda_missing_student_skipped_witness :
    (processStudent c5student 2 "Final").1 = none ∧
    LogEvent.noEDA c5student.id ∈ (processStudent c5student 2 "Final").2 ∧
    ∀ pre post : List StudentDir,
      pipelineFrames (pre ++ c5student :: post) 2 "Final" =
        pipelineFrames pre 2 "Final" ++ pipelineFrames post 2 "Final" :=
  eda_missing_student_skipped c5student 2 "Final" c5files rfl (Or.inl rfl)

/-- C9: when no student yields a merged frame, the run writes nothing,
reports that nothing was produced, and terminates normally. -/
theorem nothing_merged_no_write (students : List StudentDir) (d : ℕ) (lbl : String)
    (h : ∀ st ∈ students, (processStudent st d lbl).1 = none) :
    (runPipeline students d lbl).1 = none ∧
    LogEvent.nothingProduced ∈ (runPipeline students d lbl).2 := by
  have hframes : pipelineFrames students d lbl = [] := by
    rw [pipelineFrames, List.filterMap_eq_nil_iff]
    exact h
  constructor <;> simp [runPipeline, hframes]

def c9student : StudentDir := ⟨"S1", none⟩

/-- Witness for C9: a batch whose single student has no exam folder. -/
theorem nothing_merged_no_write_witness :
    (runPipeline [c9student] 2 "Final").1 = none ∧
    LogEvent.nothingProduced ∈ (runPipeline [c9student] 2 "Final").2 :=
  nothing_merged_no_write [c9student] 2 "Final" (by
    intro st hst
    rw [List.mem_singleton] at hst
    subst hst
    rfl)

lemma sensor_mem_sensorList (s : Sensor) : s ∈ sensorList := by
  cases s <;> simp [sensorList]

/-- The log lines of the per-sensor loop, in sensor order. -/
lemma processSensors_snd_eq (sid : String) (files : Sensor → Option SensorFile)
    (d : ℕ) (ls : List Sensor) :
    (processSensors sid files d ls).2 = ls.filterMap (fun s =>
      match files s with
      | none => some (LogEvent.fileMissing sid s)
      | some f =>
        match processSensorFile f d with
        | .ok _ => none
        | .error e => some (LogEvent.sensorError sid s e)) := by
  induction ls with
  | nil => rfl
  | cons s rest ih =>
    cases hf : files s with
    | none => simp [processSensors, hf, ih]
    | some f =>
      cases hp : processSensorFile f d with
      | ok a => simp [processSensors, hf, hp, ih]
      | error e => simp [processSensors, hf, hp, ih]

/-- A failing sensor file puts its error line (with student and sensor
identity) into the per-sensor log. -/
lemma processSensors_error_mem (sid : String) (files : Sensor → Option SensorFile)
    (d : ℕ) (s : Sensor) (f : SensorFile) (e : ReadErr)
    (hf : files s = some f) (herr : processSensorFile f d = Except.error e) :
    ∀ ls : List Sensor, s ∈ ls →
      LogEvent.sensorError sid s e ∈ (processSensors sid files d ls).2 := by
  intro ls hmem
  rw [processSensors_snd_eq]
  rw [List.mem_filterMap]
  refine ⟨s, hmem, ?_⟩
  rw [hf]
  dsimp only
  rw [herr]

/-- A failing sensor file produces no entry in `sensor_dfs`: the sensor
is dropped for that student. -/
lemma sensorFrames_error_dropped (sid : String) (files : Sensor → Option SensorFile)
    (d : ℕ) (s : Sensor) (f : SensorFile) (e : ReadErr)
    (hf : files s = some f) (herr : processSensorFile f d = Except.error e) :
    lookupSensor s (sensorFrames sid files d) = none := by
  apply lookupSensor_eq_none
  intro p hp hcon
  obtain ⟨-, f₁, hf₁, hok⟩ := sensorFrames_mem sid files d p hp
  rw [hcon] at hf₁
  have hff : f = f₁ := by
    have := hf.symm.trans hf₁
    simpa using this
  rw [← hff, herr] at hok
  exact absurd hok (by simp)

/-- C6: an error while processing one sensor file is confined to that
file: the failure is logged with the student and sensor identity, the
sensor is dropped from `sensor_dfs` and hence from the merged frame's
columns, the student's other sensors still produce a full merged frame
of `d` rows (EDA succeeding), and every other student of the batch is
processed exactly as before. -/
theorem sensor_error_isolated (st : StudentDir) (d : ℕ) (lbl : String)
    (files : Sensor → Option SensorFile) (s : Sensor) (f : SensorFile) (e : ReadErr)
    (hex : st.exam = some files)
    (hf : files s = some f) (herr : processSensorFile f d = Except.error e)
    (hEDA : (lookupSensor Sensor.EDA (sensorFrames st.id files d)).isSome = true) :
    LogEvent.sensorError st.id s e ∈ (processStudent st d lbl).2 ∧
    lookupSensor s (sensorFrames st.id files d) = none ∧
    (processStudent st d lbl).1.map
        (fun fr => (fr.rows.map Prod.fst, decide (s ∈ fr.cols))) =
      some (List.range d, false) ∧
    ∀ pre post : List StudentDir,
      pipelineFrames (pre ++ st :: post) d lbl =
        pipelineFrames pre d lbl ++ (processStudent st d lbl).1.toList ++
          pipelineFrames post d lbl := by
  obtain ⟨fr, hfr⟩ := processStudent_succeeds st d lbl files hex hEDA
  have h1 : (processStudent st d lbl).1 = some fr := by rw [hfr]
  obtain ⟨hk, hc, -, -⟩ := processStudent_some_spec st d lbl files hex fr h1
  have hdrop := sensorFrames_error_dropped st.id files d s f e hf herr
  refine ⟨?_, hdrop, ?_, ?_⟩
  · rw [hfr]
    exact processSensors_error_mem st.id files d s f e hf herr sensorList
      (sensor_mem_sensorList s)
  · rw [h1]
    have hnotin : s ∉ fr.cols := by
      rw [hc]
      intro hmem
      rw [List.mem_map] at hmem
      obtain ⟨p, hp, hps⟩ := hmem
      obtain ⟨-, f₁, hf₁, hok⟩ := sensorFrames_mem st.id files d p hp
      rw [hps] at hf₁
      have hff : f = f₁ := by
        have := hf.symm.trans hf₁
        simpa using this
      rw [← hff, herr] at hok
      exact absurd hok (by simp)
    simp [hk, hnotin]
  · intro pre post
    show (pre ++ st :: post).filterMap (fun s₂ => (processStudent s₂ d lbl).1) = _
    have hcons : (st :: post).filterMap (fun s₂ => (processStudent s₂ d lbl).1) =
        fr :: post.filterMap (fun s₂ => (processStudent s₂ d lbl).1) := by
      rw [List.filterMap_cons, h1]
    rw [List.filterMap_append, hcons]
    simp [pipelineFrames, h1]

/-- An HR file whose third data line is non-numeric. -/
def c6badHR : SensorFile := ⟨[Cell.num 0, Cell.num 1, Cell.bad]⟩

/-- A student directory with a valid EDA.csv and a corrupted HR.csv. -/
def c6files : Sensor → Option SensorFile := fun s =>
  match s with
  | Sensor.EDA => some wEDAfile
  | Sensor.HR => some c6badHR
  | _ => none

def c6student : StudentDir := ⟨"S3", some c6files⟩

/-- Witness for C6: the student with the corrupted HR.csv still yields a
full 2-row frame whose HR column is absent, and the rest of the batch is
untouched. -/
theorem sensor_error_isolated_witness :
    LogEvent.sensorError c6student.id Sensor.HR ReadErr.malformedData ∈
      (processStudent c6student 2 "Final").2 ∧
    lookupSensor Sensor.HR (sensorFrames c6student.id c6files 2) = none ∧
    (processStudent c6student 2 "Final").1.map
        (fun fr => (fr.rows.map Prod.fst, decide (Sensor.HR ∈ fr.cols))) =
      some (List.range 2, false) ∧
    ∀ pre post : List StudentDir,
      pipelineFrames (pre ++ c6student :: post) 2 "Final" =
        pipelineFrames pre 2 "Final" ++ (processStudent c6student 2 "Final").1.toList ++
          pipelineFrames post 2 "Final" :=
  sensor_error_isolated c6student 2 "Final" c6files Sensor.HR c6badHR
    ReadErr.malformedData rfl rfl (by rfl) (by decide)

lemma pairwise_filterMap_of {α β : Type _} {R : α → α → Prop} {S : β → β → Prop}
    (g : α → Option β)
    (hg : ∀ a b fa fb, g a = some fa → g b = some fb → R a b → S fa fb) :
    ∀ l : List α, l.Pairwise R → (l.filterMap g).Pairwise S := by
  intro l
  induction l with
  | nil => intro h; simp
  | cons a rest ih =>
    intro hp
    rw [List.pairwise_cons] at hp
    rw [List.filterMap_cons]
    cases hga : g a with
    | none => exact ih hp.2
    | some fa =>
      refine List.Pairwise.cons ?_ (ih hp.2)
      intro fb hfb
      rw [List.mem_filterMap] at hfb
      obtain ⟨b, hb, hgb⟩ := hfb
      exact hg a b fa fb hga hgb (hp.1 b hb)

/-- Any merged frame in the accumulated list carries its student's id
and one row per minute. -/
lemma processStudent_frame_facts (st : StudentDir) (d : ℕ) (lbl : String) (fr : Frame)
    (h : (processStudent st d lbl).1 = some fr) :
    fr.student = st.id ∧ fr.rows.map Prod.fst = List.range d := by
  cases hex : st.exam with
  | none =>
    rw [processStudent, hex] at h
    exact absurd h (by simp)
  | some files =>
    obtain ⟨hk, -, hs, -⟩ := processStudent_some_spec st d lbl files hex fr h
    exact ⟨hs, hk⟩

lemma concatFrames_mem (frames : List Frame) (b : CorpusRow)
    (hb : b ∈ concatFrames frames) : ∃ fr ∈ frames, b.student = fr.student := by
  rw [concatFrames, List.mem_flatMap] at hb
  obtain ⟨fr, hfr, hbr⟩ := hb
  rw [List.mem_map] at hbr
  obtain ⟨r, hr, hrb⟩ := hbr
  exact ⟨fr, hfr, by rw [← hrb]⟩

/-- Concatenating frames with pairwise distinct students and full minute
coverage yields rows with pairwise distinct (student, minute) pairs. -/
lemma concatFrames_pairwise (d : ℕ) :
    ∀ frames : List Frame,
      frames.Pairwise (fun f₁ f₂ => f₁.student ≠ f₂.student) →
      (∀ fr ∈ frames, fr.rows.map Prod.fst = List.range d) →
      (concatFrames frames).Pairwise
        (fun r₁ r₂ => ¬(r₁.student = r₂.student ∧ r₁.minute = r₂.minute)) := by
  intro frames
  induction frames with
  | nil => intro _ _; simp [concatFrames]
  | cons fr rest ih =>
    intro hpw hkeys
    rw [List.pairwise_cons] at hpw
    rw [concatFrames, List.flatMap_cons, List.pairwise_append]
    refine ⟨?_, ih hpw.2 (fun q hq => hkeys q (by simp [hq])), ?_⟩
    · have hnodup : (fr.rows.map Prod.fst).Nodup := by
        rw [hkeys fr (by simp)]
        exact List.nodup_range d
      have hpair : fr.rows.Pairwise (fun r₁ r₂ => r₁.1 ≠ r₂.1) :=
        List.pairwise_map.mp hnodup
      rw [List.pairwise_map]
      exact hpair.imp (fun hne hcon => hne hcon.2)
    · intro a ha b hb
      rw [List.mem_map] at ha
      obtain ⟨r, hr, hra⟩ := ha
      obtain ⟨fr₁, hfr₁, hbs⟩ := concatFrames_mem rest b hb
      intro hcon
      have has : a.student = fr.student := by rw [← hra]
      exact (hpw.1 fr₁ hfr₁) (by rw [← has, hcon.1, hbs])

/-- C8: when the corpus is non-empty (and student ids are distinct, as
directory basenames are), the written table's columns are exactly the
members of (Student, Exam, Minute, EDA, BVP, TEMP, HR) present in the
concatenated frame, in that fixed order; its rows are exactly the
concatenation of the per-student frames in order; and no two rows share
a (student, minute) pair. -/
theorem corpus_output_shape (students : List StudentDir) (d : ℕ) (lbl : String)
    (hne : (pipelineFrames students d lbl).isEmpty = false)
    (hid : (students.map StudentDir.id).Nodup) :
    (runPipeline students d lbl).1.map Corpus.cols =
      some (desiredCols.filter (colPresent (pipelineFrames students d lbl))) ∧
    (runPipeline students d lbl).1.map Corpus.rows =
      some (concatFrames (pipelineFrames students d lbl)) ∧
    (concatFrames (pipelineFrames students d lbl)).Pairwise
      (fun r₁ r₂ => ¬(r₁.student = r₂.student ∧ r₁.minute = r₂.minute)) := by
  refine ⟨?_, ?_, ?_⟩
  · simp [runPipeline, hne, mkCorpus]
  · simp [runPipeline, hne, mkCorpus]
  · have hstu : students.Pairwise (fun a b => a.id ≠ b.id) :=
      List.pairwise_map.mp hid
    apply concatFrames_pairwise d
    · refine pairwise_filterMap_of (fun st => (processStudent st d lbl).1) ?_ students hstu
      intro a b fa fb hga hgb hab
      have h₁ := (processStudent_frame_facts a d lbl fa hga).1
      have h₂ := (processStudent_frame_facts b d lbl fb hgb).1
      rw [h₁, h₂]
      exact hab
    · intro fr hfr
      rw [pipelineFrames, List.mem_filterMap] at hfr
      obtain ⟨st, -, hg⟩ := hfr
      exact (processStudent_frame_facts st d lbl fr hg).2

/-- A student directory holding only EDA.csv. -/
def c8files : Sensor → Option SensorFile := fun s =>
  match s with
  | Sensor.EDA => some wEDAfile
  | _ => none

def c8studentA : StudentDir := ⟨"S1", some c8files⟩

def c8studentB : StudentDir := ⟨"S2", some c8files⟩

/-- Witness for C8: a two-student batch at duration 1. -/
theorem corpus_output_shape_witness :
    (runPipeline [c8studentA, c8studentB] 1 "Final").1.map Corpus.cols =
      some (desiredCols.filter (colPresent (pipelineFrames [c8studentA, c8studentB] 1 "Final"))) ∧
    (runPipeline [c8studentA, c8studentB] 1 "Final").1.map Corpus.rows =
      some (concatFrames (pipelineFrames [c8studentA, c8studentB] 1 "Final")) ∧
    (concatFrames (pipelineFrames [c8studentA, c8studentB] 1 "Final")).Pairwise
      (fun r₁ r₂ => ¬(r₁.student = r₂.student ∧ r₁.minute = r₂.minute)) :=
  corpus_output_shape [c8studentA, c8studentB] 1 "Final" (by decide) (by decide)

/-- The C7 scenario's EDA file: start 1000.0, rate 1 Hz, 185 data lines
all equal to 1.0. -/
def c7file : SensorFile :=
  ⟨Cell.num 1000 :: Cell.num 1 :: List.replicate 185 (Cell.num 1)⟩

/-- The C7 scenario's student directory: only EDA.csv. -/
def c7files : Sensor → Option SensorFile := fun s =>
  match s with
  | Sensor.EDA => some c7file
  | _ => none

def c7student : StudentDir := ⟨"S10", some c7files⟩

/-- The cell of a merged frame at one minute and sensor: `none` when no
row has that minute, `some cell` otherwise. -/
def frameRowCell (fr : Frame) (m : ℕ) (s : Sensor) : Option (Option ℚ) :=
  (fr.rows.find? (fun r => decide (r.1 = m))).map (fun r => r.2 s)


lemma foldl_min_of_le (l : List (ℚ × ℚ)) : ∀ acc : ℚ, (∀ p ∈ l, acc ≤ p.1) →
    l.foldl (fun m q => min m q.1) acc = acc := by
  induction l with
  | nil => intro acc _; rfl
  | cons p rest ih =>
    intro acc h
    rw [List.foldl_cons]
    have h1 : min acc p.1 = acc := min_eq_left (h p (by simp))
    rw [h1]
    exact ih acc (fun q hq => h q (by simp [hq]))

/-- When the head timestamp is the smallest, `min()` returns it. -/
lemma minTimestamp_cons_of_le (p : ℚ × ℚ) (rest : List (ℚ × ℚ))
    (h : ∀ q ∈ rest, p.1 ≤ q.1) : minTimestamp (p :: rest) = some p.1 := by
  show some (rest.foldl (fun m q => min m q.1) p.1) = some p.1
  rw [foldl_min_of_le rest p.1 h]

lemma listSum_replicate_one : ∀ k : ℕ, listSum (List.replicate k 1) = (k : ℚ) := by
  intro k
  induction k with
  | zero => simp
  | succ n ih =>
    rw [List.replicate_succ, listSum_cons, ih]
    push_cast
    ring

lemma meanOpt_replicate_one (k : ℕ) (hk : k ≠ 0) :
    meanOpt (List.replicate k 1) = some 1 := by
  have hne : (List.replicate k (1 : ℚ)).isEmpty = false := by
    simp [hk]
  rw [meanOpt, hne]
  simp only [Bool.false_eq_true, if_false, listSum_replicate_one, List.length_replicate]
  rw [div_self (by exact_mod_cast hk)]

lemma zip_replicate_self {α β : Type _} (c : β) :
    ∀ l : List α, l.zip (List.replicate l.length c) = l.map (fun a => (a, c)) := by
  intro l
  induction l with
  | nil => rfl
  | cons a rest ih =>
    rw [List.length_cons, List.replicate_succ, List.zip_cons_cons, ih, List.map_cons]

set_option maxRecDepth 8192 in
/-- Processing the C7 EDA file succeeds, and (projected onto the Minute
and value columns) the aggregated frame holds the mean `1.0` for minutes
0..3 and a missing value for minutes 4..179: the 185 one-second samples
land in buckets 0..3 and none is discarded. -/
lemma c7_agg_eq : ∃ agg, processSensorFile c7file 180 = Except.ok agg ∧
    agg.map (fun r => (r.1, r.2.1)) =
      (List.range 180).map (fun m => (m, if m < 4 then some (1 : ℚ) else none)) := by
  have hread : read_sensor_data c7file =
      Except.ok ((List.range 185).map
        (fun (i : ℕ) => (EF.fin (1000 + (i : ℚ)), Cell.num 1))) := by
    show (if (List.replicate 185 (Cell.num 1)).isEmpty = true
        then Except.error ReadErr.emptyData
        else Except.ok (((List.range
            (List.replicate 185 (Cell.num 1)).length).zip
            (List.replicate 185 (Cell.num 1))).map
          (fun p => (EF.addQ 1000 (efDivFin (p.1 : ℚ) 1), p.2)))) = _
    rw [if_neg (by simp)]
    congr 1
    rw [List.length_replicate]
    rw [show List.replicate 185 (Cell.num 1) =
      List.replicate (List.range 185).length (Cell.num 1) by rw [List.length_range]]
    rw [zip_replicate_self, List.map_map]
    exact List.map_congr_left (fun i _ => by simp [efDivFin, EF.addQ])
  have hbad : hasBadCell ((List.range 185).map
      (fun (i : ℕ) => (EF.fin (1000 + (i : ℚ)), Cell.num 1))) = false := by
    rw [hasBadCell, List.any_eq_false]
    intro x hx
    rw [List.mem_map] at hx
    obtain ⟨i, -, hix⟩ := hx
    rw [← hix]
    simp
  have hfin : finiteSamples ((List.range 185).map
      (fun (i : ℕ) => (EF.fin (1000 + (i : ℚ)), Cell.num 1))) =
      (List.range 185).map (fun (i : ℕ) => ((1000 + (i : ℚ)), (1 : ℚ))) := by
    rw [finiteSamples, List.filterMap_map]
    rw [show ((fun s : EF × Cell =>
        match s with
        | (EF.fin t, Cell.num v) => some (t, v)
        | _ => none) ∘ (fun (i : ℕ) => (EF.fin (1000 + (i : ℚ)), Cell.num 1))) =
        (some ∘ (fun (i : ℕ) => ((1000 + (i : ℚ)), (1 : ℚ)))) from rfl]
    rw [List.filterMap_eq_map]
  have hok : processSensorFile c7file 180 =
      Except.ok (aggregate_to_minutes
        ((List.range 185).map (fun (i : ℕ) => ((1000 + (i : ℚ)), (1 : ℚ)))) 180) := by
    rw [processSensorFile, hread]
    dsimp only
    rw [hbad]
    simp only [Bool.false_eq_true, if_false, hfin]
  refine ⟨_, hok, ?_⟩
  have ht0 : minTimestamp ((List.range 185).map
      (fun (i : ℕ) => ((1000 + (i : ℚ)), (1 : ℚ)))) = some 1000 := by
    have hS_cons : (List.range 185).map (fun (i : ℕ) => ((1000 + (i : ℚ)), (1 : ℚ))) =
        ((1000 + ((0 : ℕ) : ℚ)), (1 : ℚ)) ::
          (List.range 184).map (fun (i : ℕ) => ((1000 + (((i + 1 : ℕ)) : ℚ)), (1 : ℚ))) := by
      rw [show (185 : ℕ) = 184 + 1 from rfl, List.range_succ_eq_map]
      rw [List.map_cons, List.map_map]
      rfl
    rw [hS_cons]
    rw [minTimestamp_cons_of_le _ _ ?_]
    · norm_num
    · intro q hq
      rw [List.mem_map] at hq
      obtain ⟨i, -, hiq⟩ := hq
      rw [← hiq]
      push_cast
      have : (0 : ℚ) ≤ (i : ℚ) := Nat.cast_nonneg i
      linarith
  have hidx : ∀ i : ℕ, minuteIndex 1000 (1000 + (i : ℚ)) = ((i / 60 : ℕ) : ℤ) := by
    intro i
    rw [minuteIndex]
    rw [show (1000 + (i : ℚ) - 1000) = (((i : ℤ)) : ℚ) by push_cast; ring]
    rw [show (60 : ℚ) = (((60 : ℕ)) : ℚ) by norm_num]
    rw [Rat.floor_intCast_div_natCast]
    exact (Int.natCast_div i 60).symm
  have hmem : ∀ m : ℕ,
      ((List.range 185).map (fun (i : ℕ) => ((1000 + (i : ℚ)), (1 : ℚ)))).filter
        (fun p => decide (minuteIndex 1000 p.1 = (m : ℤ))) =
      ((List.range 185).filter (fun i => decide (i / 60 = m))).map
        (fun (i : ℕ) => ((1000 + (i : ℚ)), (1 : ℚ))) := by
    intro m
    rw [List.filter_map]
    congr 1
    apply List.filter_congr
    intro i _
    show decide (minuteIndex 1000 (1000 + (i : ℚ)) = (m : ℤ)) = decide (i / 60 = m)
    rw [hidx i]
    exact decide_eq_decide.mpr Int.natCast_inj
  have hcount_lo : ∀ m : ℕ, m < 4 →
      ((List.range 185).filter (fun i => decide (i / 60 = m))).length ≠ 0 := by
    intro m hm h0
    have hmem60 : 60 * m ∈ (List.range 185).filter (fun i => decide (i / 60 = m)) := by
      rw [List.mem_filter]
      constructor
      · rw [List.mem_range]
        omega
      · have h60 : (60 * m) / 60 = m := by omega
        simp [h60]
    rw [List.length_eq_zero] at h0
    rw [h0] at hmem60
    simp at hmem60
  have hcount_hi : ∀ m : ℕ, 4 ≤ m →
      (List.range 185).filter (fun i => decide (i / 60 = m)) = [] := by
    intro m hm
    rw [List.filter_eq_nil_iff]
    intro i hi
    rw [List.mem_range] at hi
    simp only [decide_eq_true_eq]
    omega
  apply List.ext_getElem?
  intro n
  by_cases hn : n < 180
  · rw [List.getElem?_map, List.getElem?_map, List.getElem?_range hn]
    rw [aggregate_bucket_getElem _ 1000 ht0 180 n hn]
    rw [Option.map_some', Option.map_some']
    dsimp only
    rw [hmem n]
    rw [List.map_map]
    rw [show ((Prod.snd ∘ fun (i : ℕ) => (((1000 + (i : ℚ)), (1 : ℚ)))) =
      fun _ : ℕ => (1 : ℚ)) from rfl]
    rw [List.map_const']
    by_cases hm4 : n < 4
    · rw [if_pos hm4]
      rw [meanOpt_replicate_one _ (hcount_lo n hm4)]
    · rw [if_neg hm4]
      rw [hcount_hi n (by omega)]
      rfl
  · have h1 : ((aggregate_to_minutes
        ((List.range 185).map (fun (i : ℕ) => ((1000 + (i : ℚ)), (1 : ℚ)))) 180).map
        (fun r => (r.1, r.2.1))).length = 180 := by
      rw [List.length_map, aggregate_length]
    have h2 : ((List.range 180).map
        (fun m => (m, if m < 4 then some (1 : ℚ) else none))).length = 180 := by
      rw [List.length_map, List.length_range]
    rw [List.getElem?_eq_none, List.getElem?_eq_none]
    · rw [h2]; omega
    · rw [h1]; omega

/-- When only EDA.csv is present and processes successfully,
`sensor_dfs` is exactly the singleton EDA entry. -/
lemma sensorFrames_single (sid : String) (files : Sensor → Option SensorFile)
    (d : ℕ) (f : SensorFile) (agg : Agg)
    (hEDA : files Sensor.EDA = some f) (hHR : files Sensor.HR = none)
    (hTEMP : files Sensor.TEMP = none) (hBVP : files Sensor.BVP = none)
    (hok : processSensorFile f d = Except.ok agg) :
    sensorFrames sid files d = [(Sensor.EDA, agg)] := by
  rw [sensorFrames, processSensors_fst_eq]
  show List.filterMap _ [Sensor.EDA, Sensor.HR, Sensor.TEMP, Sensor.BVP] = _
  simp only [List.filterMap_cons, List.filterMap_nil, hEDA, hHR, hTEMP, hBVP, hok]

/-- The C7 student's merged frame: only the EDA column, 180 rows whose
EDA cell is `1.0` for minutes 0..3 and missing for minutes 4..179. -/
lemma c7_processed : ∃ fr, (processStudent c7student 180 "Final").1 = some fr ∧
    fr.cols = [Sensor.EDA] ∧
    fr.rows.map (fun r => (r.1, r.2 Sensor.EDA)) =
      (List.range 180).map (fun m => (m, if m < 4 then some (1 : ℚ) else none)) := by
  obtain ⟨agg, hok, hproj⟩ := c7_agg_eq
  have hframes : sensorFrames c7student.id c7files 180 = [(Sensor.EDA, agg)] :=
    sensorFrames_single c7student.id c7files 180 c7file agg rfl rfl rfl rfl hok
  have hlook : lookupSensor Sensor.EDA [(Sensor.EDA, agg)] = some agg := by
    rw [lookupSensor, List.find?_cons_of_pos _ (by simp)]
    rfl
  have hmerge : mergeStudent c7student.id "Final"
      (sensorFrames c7student.id c7files 180) =
      some (seedFrame c7student.id "Final" agg) := by
    rw [hframes, mergeStudent, hlook]
    simp
  have hps : processStudent c7student 180 "Final" =
      (some (seedFrame c7student.id "Final" agg),
        sensorLogs c7student.id c7files 180) := by
    rw [processStudent, show c7student.exam = some c7files from rfl]
    dsimp only
    rw [hmerge]
  refine ⟨seedFrame c7student.id "Final" agg, by rw [hps], rfl, ?_⟩
  show ((agg.map (fun r =>
      ((r.1, fun s => if s = Sensor.EDA then r.2.1 else none) :
        ℕ × (Sensor → Option ℚ)))).map (fun r => (r.1, r.2 Sensor.EDA))) = _
  rw [List.map_map]
  rw [show ((fun (r : ℕ × (Sensor → Option ℚ)) => (r.1, r.2 Sensor.EDA)) ∘
      (fun (r : ℕ × Option ℚ × Option ℚ) =>
        ((r.1, fun s => if s = Sensor.EDA then r.2.1 else none) :
          ℕ × (Sensor → Option ℚ)))) =
      (fun (r : ℕ × Option ℚ × Option ℚ) => (r.1, r.2.1)) from ?_]
  · exact hproj
  · funext r
    simp

/-- Counterexample for C7 as stated: in the scenario (EDA.csv with start
1000.0, 1 Hz, 185 samples of value 1.0, duration 180) the claim says the
EDA column equals 1.0 for every minute 0..179 with samples 180-184
discarded; but at 1 Hz the 185 samples span 185 seconds, i.e. minute
indices 0..3, so minute 179 has no sample and its EDA cell is missing
(`some none`: the row exists, the cell is NaN), not 1.0. -/
theorem c7_scenario_counterexample :
    (processStudent c7student 180 "Final").1.map
        (fun fr => frameRowCell fr 179 Sensor.EDA) = some (some none) := by
  obtain ⟨fr, h1, -, hrows⟩ := c7_processed
  rw [h1, Option.map_some']
  rw [frameRowCell]
  have hfind : (fr.rows.map
        (fun r => (r.1, r.2 Sensor.EDA))).find? (fun x => decide (x.1 = 179)) =
      (fr.rows.find? (fun r => decide (r.1 = 179))).map
        (fun r => (r.1, r.2 Sensor.EDA)) :=
    List.find?_map _ _
  rw [hrows] at hfind
  have hconcrete : ((List.range 180).map
      (fun m => (m, if m < 4 then some (1 : ℚ) else none))).find?
        (fun x => decide (x.1 = 179)) = some (179, none) := by
    rw [List.find?_map]
    have h179 : (List.range 180).find? (fun m => decide (m = 179)) = some 179 := by
      decide
    rw [show ((fun (x : ℕ × Option ℚ) => decide (x.1 = 179)) ∘
        (fun m => ((m, if m < 4 then some (1 : ℚ) else none) : ℕ × Option ℚ))) =
        (fun m : ℕ => decide (m = 179)) from rfl]
    rw [h179, Option.map_some']
    norm_num
  rw [hconcrete] at hfind
  cases hf2 : fr.rows.find? (fun r => decide (r.1 = 179)) with
  | none =>
    rw [hf2] at hfind
    exact absurd hfind (by simp)
  | some r =>
    rw [hf2] at hfind
    have h3 : 179 = r.1 ∧ none = r.2 Sensor.EDA := by simpa using hfind
    rw [Option.map_some', ← h3.2]

/-- C7 (amended to what the code computes on the stated input — EDA.csv
with start 1000.0, rate 1 Hz, 185 data lines of 1.0, duration 180): the
merged output has 180 rows, one per minute 0..179, with only an EDA
column (BVP, TEMP and HR entirely missing); no sample is discarded (the
one-second samples cover minutes 0..3 only), the EDA value is 1.0 for
minutes 0..3 (minutes 0-2 average 60 samples each, minute 3 averages the
last 5) and is missing for minutes 4..179. -/
theorem c7_scenario_actual :
    (processStudent c7student 180 "Final").1.map
        (fun fr => (fr.cols, fr.rows.map (fun r => (r.1, r.2 Sensor.EDA)))) =
      some ([Sensor.EDA],
        (List.range 180).map (fun m => (m, if m < 4 then some (1 : ℚ) else none))) := by
  obtain ⟨fr, h1, hcols, hrows⟩ := c7_processed
  rw [h1, Option.map_some', hcols, hrows]
